import Mathlib

/-!
Verification development for the BA-characters-id acquisition-and-normalization
pipeline (src/main.py).  The Python source is shallowly embedded: Python strings
are Lean `String`s and every Python string primitive used by the source
(`startswith`, `endswith`, `removeprefix`, `removesuffix`, slicing, `lower`,
`upper`, `strip`, `in`, `join`) is modelled code-point-wise on `String.toList`,
which matches Python's code-point indexing.  `lower`/`upper` are modelled with
`Char.toLower`/`Char.toUpper` (ASCII); every string the claims exercise is
either ASCII or caseless CJK, where this agrees with Python.  JSON dictionaries
reaching the parser are modelled as structures holding the fields the source
consults (`Option` = key absent / `None`); JSON blobs handled generically by the
cache/fetch layer are modelled by the inductive `JVal`.
-/

/-! ## Python string primitives -/

/-- Python `s.lower()` (ASCII case mapping; the source only lowercases
ASCII/CJK spine names). -/
def pyLower (s : String) : String := String.mk (s.toList.map Char.toLower)

/-- Python `s.upper()` (ASCII case mapping). -/
def pyUpper (s : String) : String := String.mk (s.toList.map Char.toUpper)

/-- Python `s.startswith(pre)`. -/
def sStartsWith (s pre : String) : Bool :=
  s.toList.take pre.toList.length == pre.toList

/-- Python `s.endswith(suf)`. -/
def sEndsWith (s suf : String) : Bool :=
  s.toList.drop (s.toList.length - suf.toList.length) == suf.toList

/-- Python `s[n:]` (drop the first `n` code points). -/
def sDrop (s : String) (n : Nat) : String := String.mk (s.toList.drop n)

/-- Python `s[:-n]` for `n ≤ len s` (drop the last `n` code points). -/
def sDropRight (s : String) (n : Nat) : String :=
  String.mk (s.toList.take (s.toList.length - n))

/-- Auxiliary for Python's `pat in s`: does `pat` occur as a contiguous
sublist? -/
def hasSubList (pat : List Char) : List Char → Bool
  | [] => pat.isEmpty
  | c :: rest => pat.isPrefixOf (c :: rest) || hasSubList pat rest

/-- Python `pat in s` (substring containment). -/
def containsSub (s pat : String) : Bool := hasSubList pat.toList s.toList

/-- Python `s.removeprefix(pre)`. -/
def removePrefixStr (s pre : String) : String :=
  if sStartsWith s pre then sDrop s pre.toList.length else s

/-- Python `s.removesuffix(suf)`. -/
def removeSuffixStr (s suf : String) : String :=
  if sEndsWith s suf then sDropRight s suf.toList.length else s

/-- Whitespace stripped by Python `str.strip()` (the ASCII subset; the source
only strips a possible trailing space from `"family given"`). -/
def isPyWS (c : Char) : Bool :=
  c == ' ' || c == '\t' || c == '\n' || c == '\r' || c == '\x0b' || c == '\x0c'

/-- Python `s.strip()`. -/
def pyStrip (s : String) : String :=
  String.mk (((s.toList.dropWhile isPyWS).reverse.dropWhile isPyWS).reverse)

/-- Python `",".join(parts)`. -/
def joinComma : List String → String
  | [] => ""
  | [x] => x
  | x :: y :: rest => x ++ "," ++ joinComma (y :: rest)

/-! ## Data model (src/main.py dataclasses and the JSON fields the parser
consults) -/

/-- `StudentForm` dataclass. -/
structure StudentForm where
  file_id : String
  char_id : Int
  spine_id : Option Int
  full_name : String
  name : String
  skin_name : String
  name_cn : String
  name_jp : String
  name_tw : String
  name_en : String
  name_kr : String
deriving DecidableEq, Repr

/-- `SkippedRecord` dataclass.  The source type of `school` is `int | str`
with default `""`; it is modelled as `Option Int` with `none` for `""` (the
API delivers an integer school id when the field is present). -/
structure SkippedRecord where
  student_id : Int := 0
  spine_id : Option Int := none
  reason : String := ""
  spine_name : Option String := none
  spine_remark : Option String := none
  name : String := ""
  name_jp : String := ""
  name_en : String := ""
  school : Option Int := none
deriving DecidableEq, Repr

/-- One spine (sub-entity) JSON payload, restricted to the keys the parser
consults: `id`, `name`, `type`, `remark`.  `none` models an absent key
(`dict.get` returning `None`). -/
structure SpineItem where
  id : Option Int := none
  name : Option String := none
  type : Option String := none
  remark : Option String := none
deriving DecidableEq, Repr

/-- The `data` section of a student JSON payload, restricted to the keys the
parser consults.  `none` models an absent key. -/
structure StudentData where
  family_name : Option String := none
  given_name : Option String := none
  skin : Option String := none
  family_name_cn : Option String := none
  given_name_cn : Option String := none
  skin_cn : Option String := none
  family_name_jp : Option String := none
  given_name_jp : Option String := none
  skin_jp : Option String := none
  family_name_zh_tw : Option String := none
  given_name_zh_tw : Option String := none
  skin_zh_tw : Option String := none
  family_name_en : Option String := none
  given_name_en : Option String := none
  family_name_kr : Option String := none
  given_name_kr : Option String := none
  school : Option Int := none
  id : Option Int := none
deriving DecidableEq, Repr

/-- The state of the `'data'` key of a student payload, as distinguished by
`_validate_and_get_skip_reason`: key absent (this also covers a falsy
top-level payload, which yields the same reason string), key present but
falsy (`if not data`), or a usable value. -/
inductive DataField where
  | absent
  | empty
  | value (d : StudentData)
deriving DecidableEq, Repr

/-- A student JSON payload as seen by the parser. -/
structure CharJson where
  data : DataField
deriving DecidableEq, Repr

/-! ## DataParser -/

/-- `ACCEPT_TYPES` from `_get_spine_skip_reason`. -/
def ACCEPT_TYPES : List String := ["spr"]

/-- `SPINE_KEYWORDS_TO_SKIP` from `_get_spine_skip_reason`. -/
def SPINE_KEYWORDS_TO_SKIP : List String := ["toschool"]

/-- `SPINE_SUFFIXES_TO_SKIP` from `_get_spine_skip_reason`. -/
def SPINE_SUFFIXES_TO_SKIP : List String :=
  ["_cn", "_steam", "_glitch_spr", "_cbt", "_old", "_update", "_halofix"]

/-- Python f-string rendering of the `type` value (`f"类型 ({type_})"`):
`None` prints as `"None"`, a string prints verbatim. -/
def pyShow : Option String → String
  | none => "None"
  | some s => s

/-- `type_ in ACCEPT_TYPES` (an absent key yields `None`, which is not in the
accepted list). -/
def acceptsType : Option String → Bool
  | none => false
  | some s => ACCEPT_TYPES.contains s

/-- `DataParser._get_spine_skip_reason`.  The source's `not spine_item` guard
is subsumed by the name check: an empty dict has no `"name"` key and yields
the same reason string. -/
def get_spine_skip_reason (it : SpineItem) : Option String :=
  match it.name with
  | none => some "缺少名称或数据无效"
  | some name =>
    if name = "" then some "缺少名称或数据无效"
    else
      let name_lower := pyLower name
      if acceptsType it.type = false then some ("类型 (" ++ pyShow it.type ++ ")")
      else
        match SPINE_KEYWORDS_TO_SKIP.find? (fun kw => containsSub name_lower kw) with
        | some kw => some ("包含 (" ++ kw ++ ")")
        | none =>
          match SPINE_SUFFIXES_TO_SKIP.find? (fun suf => sEndsWith name_lower suf) with
          | some suf => some ("后缀 (" ++ removePrefixStr suf "_" ++ ")")
          | none => none

/-- `DataParser._validate_and_get_skip_reason`. -/
def validate_and_get_skip_reason (c : CharJson) : Option String :=
  match c.data with
  | DataField.absent => some "数据无效或缺少 'data' 键"
  | DataField.empty => some "键 'data' 的值为空"
  | DataField.value d =>
    if d.school = some 30 then some "官方账号"
    else if d.id = some 348 then some "彩蛋"
    else none

/-- `DataParser._build_name`. -/
def build_name (family given : Option String) : String :=
  let family_name := family.getD ""
  let given_name := given.getD ""
  if family_name ≠ "" then pyStrip (family_name ++ " " ++ given_name)
  else given_name

/-- The regex test `re.match(r"^(CH|NP)\d{4}$", f, re.IGNORECASE)` on the code
points of `f`.  Python's `$` also matches just before one final newline, and
`\d` matches Unicode digits (modelled with ASCII `Char.isDigit`; no spine
name contains non-ASCII digits). -/
def matchChNp : List Char → Bool
  | c1 :: c2 :: d1 :: d2 :: d3 :: d4 :: rest =>
    ((c1.toUpper == 'C' && c2.toUpper == 'H') ||
     (c1.toUpper == 'N' && c2.toUpper == 'P'))
    && d1.isDigit && d2.isDigit && d3.isDigit && d4.isDigit
    && (rest.isEmpty || rest == ['\n'])
  | _ => false

/-- `DataParser._normalize_file_id`. -/
def normalize_file_id (file_id : String) : String :=
  let f1 := if sStartsWith file_id "J_" then sDrop file_id 2 else file_id
  let f2 := if sEndsWith f1 "_spr" then sDropRight f1 4 else f1
  if matchChNp f2.toList then pyUpper f2 else pyLower f2

/-- `DataParser._process_spine_remark`.  `remark` and `base_skin` arrive as
strings at every call site (`spine_item.get("remark", "")`,
`data.get(skin_key) or ""`), so Python falsiness is the emptiness test. -/
def process_spine_remark (remark : String) (base_skin : String) : String :=
  if remark = "" then ""
  else if containsSub remark "初始立绘" then ""
  else
    let p1 := removeSuffixStr remark "立绘"
    let p2 := removeSuffixStr p1 "差分"
    if base_skin ≠ "" && p2 == base_skin then ""
    else p2

/-- The `skin_parts` / `",".join` computation shared by
`_build_formatted_name` and the `skin_name` block of `parse`. -/
def final_skin (base_skin processed_remark : String) : String :=
  joinComma ((if base_skin ≠ "" then [base_skin] else []) ++
             (if processed_remark ≠ "" then [processed_remark] else []))

/-- `DataParser._LANG_CONFIG`: key ↦ (family key, given key, skin key,
include-skin flag). -/
def LANG_CONFIG : String → String × String × String × Bool
  | "full_name" => ("family_name", "given_name", "skin", true)
  | "name" => ("family_name", "given_name", "", false)
  | "cn" => ("family_name_cn", "given_name_cn", "skin_cn", true)
  | "jp" => ("family_name_jp", "given_name_jp", "skin_jp", true)
  | "tw" => ("family_name_zh_tw", "given_name_zh_tw", "skin_zh_tw", true)
  | "en" => ("family_name_en", "given_name_en", "", false)
  | "kr" => ("family_name_kr", "given_name_kr", "", false)
  | _ => ("", "", "", false)

/-- `data.get(key)` for the string-valued keys named by `_LANG_CONFIG`
(the empty skin key of the no-skin languages looks up nothing). -/
def getField (d : StudentData) : String → Option String
  | "family_name" => d.family_name
  | "given_name" => d.given_name
  | "skin" => d.skin
  | "family_name_cn" => d.family_name_cn
  | "given_name_cn" => d.given_name_cn
  | "skin_cn" => d.skin_cn
  | "family_name_jp" => d.family_name_jp
  | "given_name_jp" => d.given_name_jp
  | "skin_jp" => d.skin_jp
  | "family_name_zh_tw" => d.family_name_zh_tw
  | "given_name_zh_tw" => d.given_name_zh_tw
  | "skin_zh_tw" => d.skin_zh_tw
  | "family_name_en" => d.family_name_en
  | "given_name_en" => d.given_name_en
  | "family_name_kr" => d.family_name_kr
  | "given_name_kr" => d.given_name_kr
  | _ => none

/-- `DataParser._build_formatted_name`. -/
def build_formatted_name (d : StudentData) (lang_key : String)
    (spine_remark : String) : String :=
  let cfg := LANG_CONFIG lang_key
  let base_name := build_name (getField d cfg.1) (getField d cfg.2.1)
  if base_name = "" then ""
  else if cfg.2.2.2 = false then base_name
  else
    let base_skin := (getField d cfg.2.2.1).getD ""
    let processed_remark := process_spine_remark spine_remark base_skin
    let fs := final_skin base_skin processed_remark
    if fs ≠ "" then base_name ++ "（" ++ fs ++ "）" else base_name

/-- `file_id = self._normalize_file_id(spine_item["name"])`.  The `.getD ""`
is only exercised when the name exists (guaranteed by
`_get_spine_skip_reason` returning `None`). -/
def spineFileId (it : SpineItem) : String := normalize_file_id (it.name.getD "")

/-- The `SkippedRecord` built for a rejected spine inside `parse`. -/
def mk_spine_skipped (d : StudentData) (kivo_wiki_id : Int) (it : SpineItem)
    (reason : String) : SkippedRecord where
  student_id := kivo_wiki_id
  spine_id := it.id
  reason := reason
  spine_name := it.name
  spine_remark := some (it.remark.getD "")
  name := build_name d.family_name d.given_name
  name_jp := build_name d.family_name_jp d.given_name_jp
  name_en := build_name d.family_name_en d.given_name_en
  school := d.school

/-- The skip record `parse` emits for a spine item, if any. -/
def skip_rec_of (d : StudentData) (kivo_wiki_id : Int) (it : SpineItem) :
    Option SkippedRecord :=
  (get_spine_skip_reason it).map (mk_spine_skipped d kivo_wiki_id it)

/-- The `StudentForm` built for an accepted, non-duplicate spine inside
`parse`. -/
def build_form (d : StudentData) (kivo_wiki_id : Int) (it : SpineItem) :
    StudentForm :=
  let spine_remark := it.remark.getD ""
  let base_skin := d.skin.getD ""
  { file_id := spineFileId it
    char_id := kivo_wiki_id
    spine_id := it.id
    full_name := build_formatted_name d "full_name" spine_remark
    name := build_formatted_name d "name" spine_remark
    skin_name := final_skin base_skin (process_spine_remark spine_remark base_skin)
    name_cn := build_formatted_name d "cn" spine_remark
    name_jp := build_formatted_name d "jp" spine_remark
    name_tw := build_formatted_name d "tw" spine_remark
    name_en := build_formatted_name d "en" spine_remark
    name_kr := build_formatted_name d "kr" spine_remark }

/-- The loop body of `DataParser.parse`, threading
(results, skipped_spines, processed_file_ids).  `processed_file_ids` is a
Python `set` only ever queried for membership; it is modelled as the list of
ids in insertion order. -/
def parse_step (d : StudentData) (kivo_wiki_id : Int)
    (acc : List StudentForm × List SkippedRecord × List String)
    (it : SpineItem) :
    List StudentForm × List SkippedRecord × List String :=
  match get_spine_skip_reason it with
  | some reason =>
    (acc.1, acc.2.1 ++ [mk_spine_skipped d kivo_wiki_id it reason], acc.2.2)
  | none =>
    if (spineFileId it == "") || acc.2.2.contains (spineFileId it) then acc
    else (acc.1 ++ [build_form d kivo_wiki_id it], acc.2.1,
          acc.2.2 ++ [spineFileId it])

/-- The body of `DataParser.parse` after whole-entity validation passed. -/
def parse_core (d : StudentData) (kivo_wiki_id : Int)
    (spine_data : List SpineItem) :
    List StudentForm × List SkippedRecord × Option String :=
  let st := spine_data.foldl (parse_step d kivo_wiki_id) ([], [], [])
  if st.1.isEmpty && st.2.1.isEmpty then ([], [], some "未找到可解析的角色形态")
  else (st.1, st.2.1, none)

/-- `DataParser.parse`.  When validation returns `None` the `'data'` key is
necessarily a usable value, so the last match arm is unreachable. -/
def parse (json_data : CharJson) (kivo_wiki_id : Int)
    (spine_data : List SpineItem) :
    List StudentForm × List SkippedRecord × Option String :=
  match validate_and_get_skip_reason json_data, json_data.data with
  | some r, _ => ([], [], some r)
  | none, DataField.value d => parse_core d kivo_wiki_id spine_data
  | none, _ => ([], [], none)

/-! ## Cache and fetch layer (CacheManager / APIClient)

JSON blobs handled generically (cached payloads, network response bodies) are
modelled by `JVal`; dicts are association lists with distinct keys, as
produced by `json.loads`. -/

/-- A JSON value. -/
inductive JVal where
  | jnull
  | jbool (b : Bool)
  | jnum (n : Int)
  | jstr (s : String)
  | jarr (elems : List JVal)
  | jobj (fields : List (String × JVal))

/-- Python truthiness of a JSON value. -/
def isTruthy : JVal → Bool
  | JVal.jnull => false
  | JVal.jbool b => b
  | JVal.jnum n => !(n == 0)
  | JVal.jstr s => !(s == "")
  | JVal.jarr xs => !xs.isEmpty
  | JVal.jobj fs => !fs.isEmpty

/-- `d[k]` / `k in d` on a JSON dict. -/
def lookupKey (fs : List (String × JVal)) (k : String) : Option JVal :=
  match fs.find? (fun p => p.1 == k) with
  | some p => some p.2
  | none => none

/-- `json_data.get('code') == 2000` on a dict body. -/
def code_is_2000 (fs : List (String × JVal)) : Bool :=
  match lookupKey fs "code" with
  | some (JVal.jnum n) => n == 2000
  | _ => false

/-- `d.pop(k, None)`'s effect on the dict (dict keys are distinct, so
filtering removes at most one pair). -/
def popKey (fs : List (String × JVal)) (k : String) : List (String × JVal) :=
  fs.filter (fun p => !(p.1 == k))

/-- `d[k] = v` for a key already present in the dict. -/
def setKey (fs : List (String × JVal)) (k : String) (v : JVal) :
    List (String × JVal) :=
  fs.map (fun p => if p.1 == k then (k, v) else p)

/-- The `voice_fields` loop body of `CacheManager._clean_student_data`: if the
field is present and holds a non-empty list, replace it by the sentinel;
if present otherwise, set it to the empty list. -/
def process_voice (fs : List (String × JVal)) (field : String) :
    List (String × JVal) :=
  match lookupKey fs field with
  | none => fs
  | some (JVal.jarr xs) =>
    if xs.isEmpty then setKey fs field (JVal.jarr [])
    else setKey fs field (JVal.jarr [JVal.jstr "(cached_stripped)"])
  | some _ => setKey fs field (JVal.jarr [])

/-- The transformations `_clean_student_data` applies to the `data` dict:
pop `more` and `gallery`, then process the three voice fields in order. -/
def clean_data_fields (dataFs : List (String × JVal)) : List (String × JVal) :=
  let d1 := popKey (popKey dataFs "more") "gallery"
  process_voice (process_voice (process_voice d1 "voice") "voice_cn") "voice_kr"

/-- `CacheManager._clean_student_data`.  The source mutates `json_data['data']`
in place and returns `json_data`; the model returns the mutated value. -/
def clean_student_data (json_data : JVal) : JVal :=
  match json_data with
  | JVal.jobj fs =>
    if fs.isEmpty then json_data
    else
      match lookupKey fs "data" with
      | none => json_data
      | some (JVal.jobj dataFs) =>
        JVal.jobj (setKey fs "data" (JVal.jobj (clean_data_fields dataFs)))
      | some _ => json_data
  | _ => json_data

/-- Outcome of the single student network call in
`APIClient.fetch_student_data`, as classified by its `try` block:
404, `raise_for_status` throwing `HTTPStatusError` (caught by the generic
`except Exception`), `httpx.RequestError`, any other exception (e.g. JSON
decoding), or a 2xx response with a decoded body. -/
inductive NetOutcome where
  | notFound
  | statusError (msg : String)
  | requestError (msg : String)
  | otherError (msg : String)
  | ok (body : JVal)

/-- Return value of `fetch_student_data` — the `(data, reason, from_cache)`
triple — extended with the cache write it performs (`none` = no write). -/
structure FetchResult where
  value : Option JVal
  reason : Option String
  fromCache : Bool
  cacheWrite : Option JVal

/-- The network branch of `APIClient.fetch_student_data`.  Key point: when the
body carries `code == 2000`, `save_student` runs `_clean_student_data` on the
very dict that is subsequently returned, so the caller receives the cleaned
value.  A truthy non-dict body makes `json_data.get` raise `AttributeError`,
caught by the generic handler (its message is abstracted). -/
def fetch_student_net (net : NetOutcome) : FetchResult :=
  match net with
  | NetOutcome.notFound => ⟨none, some "未找到 (404)", false, none⟩
  | NetOutcome.statusError msg => ⟨none, some ("未知错误: " ++ msg), false, none⟩
  | NetOutcome.requestError msg => ⟨none, some ("网络错误: " ++ msg), false, none⟩
  | NetOutcome.otherError msg => ⟨none, some ("未知错误: " ++ msg), false, none⟩
  | NetOutcome.ok body =>
    if isTruthy body then
      match body with
      | JVal.jobj fs =>
        if code_is_2000 fs then
          ⟨some (clean_student_data (JVal.jobj fs)), none, false,
           some (clean_student_data (JVal.jobj fs))⟩
        else ⟨some (JVal.jobj fs), none, false, none⟩
      | _ => ⟨none, some "未知错误: AttributeError", false, none⟩
    else ⟨some body, none, false, none⟩

/-- `APIClient.fetch_student_data`, as a function of the cached blob (if any)
and the network outcome.  `if cached_data := ...get_student(...)` is a
truthiness test, so a falsy cached blob is a miss. -/
def fetch_student_data (cached : Option JVal) (net : NetOutcome) : FetchResult :=
  match cached with
  | some c => if isTruthy c then ⟨some c, none, true, none⟩ else fetch_student_net net
  | none => fetch_student_net net

/-- `if cached_data := ...` hit test of the student fetch. -/
def cache_hit_student : Option JVal → Bool
  | some c => isTruthy c
  | none => false

/-- Does a response body make `fetch_student_data` persist it?  (A dict —
hence truthy iff non-empty — whose `code` entry is the number 2000.) -/
def student_body_caches : JVal → Bool
  | JVal.jobj fs => !fs.isEmpty && code_is_2000 fs
  | _ => false

/-- Does a network outcome make `fetch_student_data` persist a cache entry? -/
def net_gives_valid_2000 : NetOutcome → Bool
  | NetOutcome.ok body => student_body_caches body
  | _ => false

/-- Outcome of the spine network call in `APIClient.fetch_spine_data`:
`raise_for_status` throwing `HTTPStatusError` (with the response status),
`httpx.RequestError`, another exception, or a 2xx response with a body. -/
inductive SpineNetOutcome where
  | statusError (code : Nat)
  | requestError (msg : String)
  | otherError (msg : String)
  | ok (body : JVal)

/-- Return value of `fetch_spine_data` — the `(data, reason)` pair — extended
with the cache write it performs. -/
structure SpineFetchResult where
  value : Option JVal
  reason : Option String
  cacheWrite : Option JVal

/-- What the cache-hit branch of `fetch_spine_data` returns: the nested
payload when the blob is a dict with a `'data'` key, the blob itself
otherwise. -/
def spine_hit_value (c : JVal) : JVal :=
  match c with
  | JVal.jobj fs =>
    match lookupKey fs "data" with
    | some d => d
    | none => c
  | _ => c

/-- The network branch of `APIClient.fetch_spine_data`. -/
def fetch_spine_net : SpineNetOutcome → SpineFetchResult
  | SpineNetOutcome.statusError code =>
    if code == 404 then ⟨none, some "未找到 (404)", none⟩
    else ⟨none, some ("HTTP错误: " ++ toString code), none⟩
  | SpineNetOutcome.requestError msg => ⟨none, some ("网络错误: " ++ msg), none⟩
  | SpineNetOutcome.otherError msg => ⟨none, some ("未知错误: " ++ msg), none⟩
  | SpineNetOutcome.ok body =>
    match body with
    | JVal.jobj fs =>
      match lookupKey fs "data" with
      | some d => ⟨some d, none, some (JVal.jobj fs)⟩
      | none => ⟨none, some "响应格式无效", none⟩
    | _ => ⟨none, some "响应格式无效", none⟩

/-- `APIClient.fetch_spine_data`, as a function of the cached blob (if any)
and the network outcome. -/
def fetch_spine_data (cached : Option JVal) (net : SpineNetOutcome) :
    SpineFetchResult :=
  match cached with
  | some c =>
    if isTruthy c then ⟨some (spine_hit_value c), none, none⟩
    else fetch_spine_net net
  | none => fetch_spine_net net

/-- Is a spine response body accepted by `fetch_spine_data` (a dict containing
a `'data'` key)? -/
def valid_spine_body : JVal → Bool
  | JVal.jobj fs => (lookupKey fs "data").isSome
  | _ => false

/-! ## Orchestrator (process_student_id), with fetching abstracted -/

/-- An all-absent `data` section, modelling `json_data.get("data", {})` when
the key is missing. -/
def empty_student_data : StudentData := {}

/-- `json_data.get("data", {})` for the whole-entity skip record. -/
def data_or_empty : DataField → StudentData
  | DataField.value d => d
  | _ => empty_student_data

/-- The whole-entity `SkippedRecord` built at the end of
`process_student_id` when `parse` returned a student-level skip reason. -/
def whole_skip_rec (student_id : Int) (j : CharJson) (reason : String) :
    SkippedRecord :=
  let d := data_or_empty j.data
  let n := build_name d.family_name d.given_name
  { student_id := student_id
    spine_id := none
    reason := reason
    spine_name := none
    spine_remark := none
    name := if n ≠ "" then n else d.given_name_cn.getD ""
    name_jp := build_name d.family_name_jp d.given_name_jp
    name_en := build_name d.family_name_en d.given_name_en
    school := d.school }

/-- `process_student_id` (src/main.py lines 578–643) minus the concurrency and
I/O plumbing: `json_data` is the fetched student payload (`none` covering the
`if not json_data` branch — a failed fetch or a falsy payload),
`fetch_reason` the fetch error, and `spine_results_raw` the `(data, error)`
pairs returned by the concurrent spine fetches. -/
def process_student_result (student_id : Int) (json_data : Option CharJson)
    (fetch_reason : Option String)
    (spine_results_raw : List (Option SpineItem × Option String)) :
    Int × List StudentForm × List SkippedRecord :=
  match json_data with
  | none =>
    (student_id, [],
     [{ student_id := student_id
        spine_id := none
        reason := match fetch_reason with
                  | some r => if r ≠ "" then r else "未知网络原因"
                  | none => "未知网络原因"
        spine_name := none
        spine_remark := none
        name := ""
        name_jp := ""
        name_en := ""
        school := none }])
  | some j =>
    let spine_results := spine_results_raw.filterMap (fun p => p.1)
    let res := parse j student_id spine_results
    match res.2.2 with
    | some reason => (student_id, res.1, res.2.1 ++ [whole_skip_rec student_id j reason])
    | none => (student_id, res.1, res.2.1)

/-! ## Auxiliary definitions used by the statements -/

/-- The first spine item of the list that `_get_spine_skip_reason` accepts and
whose raw name normalizes to `fid`. -/
def first_accepted_with (spines : List SpineItem) (fid : String) :
    Option SpineItem :=
  spines.find? (fun it => (get_spine_skip_reason it).isNone && (spineFileId it == fid))

/-- Does a payload carry a dict-valued `'data'` section reachable by
`_clean_student_data` (truthy dict with a dict under `'data'`)? -/
def has_dict_data : JVal → Bool
  | JVal.jobj fs =>
    !fs.isEmpty &&
      (match lookupKey fs "data" with
       | some (JVal.jobj _) => true
       | _ => false)
  | _ => false

/-- Observation: does a student payload still contain `data.gallery`?  Used to
separate a scrubbed payload from the original. -/
def has_gallery : Option JVal → Bool
  | some (JVal.jobj fs) =>
    (match lookupKey fs "data" with
     | some (JVal.jobj ds) => (lookupKey ds "gallery").isSome
     | _ => false)
  | _ => false

/-! ## Concrete inputs used by counterexamples and witnesses -/

/-- A minimal valid student `data` section. -/
def exD1 : StudentData := {}

/-- A minimal valid student payload. -/
def exJ1 : CharJson := ⟨DataField.value exD1⟩

/-- An accepted spine whose name normalizes to `CH0001`. -/
def exItA : SpineItem := { id := some 1, name := some "J_CH0001_spr", type := some "spr" }

/-- A second accepted spine whose name also normalizes to `CH0001`. -/
def exItB : SpineItem := { id := some 2, name := some "CH0001_spr", type := some "spr" }

/-- A spine with a non-accepted type and no name at all. -/
def exIt0 : SpineItem := { id := some 7, type := some "sprite" }

/-- A spine with a name but a non-accepted type. -/
def exItT : SpineItem := { id := some 3, name := some "X", type := some "sprite" }

/-- A student `data` section with school 30 (official account). -/
def exD30 : StudentData := { school := some 30 }

/-- A student payload with school 30. -/
def exJ30 : CharJson := ⟨DataField.value exD30⟩

/-- A success body carrying `code = 2000` and a `data.gallery` entry. -/
def ex_body3 : JVal :=
  JVal.jobj [("code", JVal.jnum 2000),
             ("data", JVal.jobj [("gallery", JVal.jarr [JVal.jstr "g"]),
                                 ("family_name", JVal.jstr "A")])]

/-- A `data` dict exercising every scrub rule. -/
def exDataFs : List (String × JVal) :=
  [("more", JVal.jstr "m"), ("gallery", JVal.jarr [JVal.jstr "g"]),
   ("voice", JVal.jarr [JVal.jstr "v"]), ("voice_cn", JVal.jarr []),
   ("family_name", JVal.jstr "A")]

/-- A top-level student payload around `exDataFs`. -/
def exTopFs : List (String × JVal) :=
  [("code", JVal.jnum 2000), ("data", JVal.jobj exDataFs)]

/-- A cached spine blob that is a dict with a `'data'` key. -/
def exSpineCache : JVal := JVal.jobj [("data", JVal.jstr "payload")]

/-! ## Lemmas about the parse loop -/

theorem build_form_file_id (d : StudentData) (kid : Int) (it : SpineItem) :
    (build_form d kid it).file_id = spineFileId it := rfl

theorem parse_step_skip (d : StudentData) (kid : Int)
    (acc : List StudentForm × List SkippedRecord × List String) (it : SpineItem)
    (reason : String) (h : get_spine_skip_reason it = some reason) :
    parse_step d kid acc it
      = (acc.1, acc.2.1 ++ [mk_spine_skipped d kid it reason], acc.2.2) := by
  simp [parse_step, h]

theorem parse_step_drop (d : StudentData) (kid : Int)
    (acc : List StudentForm × List SkippedRecord × List String) (it : SpineItem)
    (h : get_spine_skip_reason it = none)
    (hc : ((spineFileId it == "") || acc.2.2.contains (spineFileId it)) = true) :
    parse_step d kid acc it = acc := by
  simp only [parse_step, h, hc]
  simp

theorem parse_step_add (d : StudentData) (kid : Int)
    (acc : List StudentForm × List SkippedRecord × List String) (it : SpineItem)
    (h : get_spine_skip_reason it = none)
    (hc : ((spineFileId it == "") || acc.2.2.contains (spineFileId it)) = false) :
    parse_step d kid acc it
      = (acc.1 ++ [build_form d kid it], acc.2.1, acc.2.2 ++ [spineFileId it]) := by
  simp only [parse_step, h, hc]
  simp

theorem foldl_parse_step_skipped (d : StudentData) (kid : Int) :
    ∀ (spines : List SpineItem) (res : List StudentForm)
      (skp : List SkippedRecord) (proc : List String),
      (spines.foldl (parse_step d kid) (res, skp, proc)).2.1
        = skp ++ spines.filterMap (skip_rec_of d kid) := by
  intro spines
  induction spines with
  | nil => intro res skp proc; simp
  | cons it rest ih =>
    intro res skp proc
    rw [List.foldl_cons]
    cases h : get_spine_skip_reason it with
    | some reason =>
      rw [parse_step_skip d kid _ it reason h, ih]
      simp [skip_rec_of, h]
    | none =>
      cases hc : ((spineFileId it == "") || proc.contains (spineFileId it)) with
      | true =>
        rw [parse_step_drop d kid _ it h hc, ih]
        simp [skip_rec_of, h]
      | false =>
        rw [parse_step_add d kid _ it h hc, ih]
        simp [skip_rec_of, h]

theorem parse_eq_core (j : CharJson) (d : StudentData) (kid : Int)
    (spines : List SpineItem) (h : j.data = DataField.value d)
    (hv : validate_and_get_skip_reason j = none) :
    parse j kid spines = parse_core d kid spines := by
  unfold parse
  rw [hv, h]

theorem parse_skipped_eq (j : CharJson) (d : StudentData) (kid : Int)
    (spines : List SpineItem) (h : j.data = DataField.value d)
    (hv : validate_and_get_skip_reason j = none) :
    (parse j kid spines).2.1 = spines.filterMap (skip_rec_of d kid) := by
  rw [parse_eq_core j d kid spines h hv]
  have hs := foldl_parse_step_skipped d kid spines [] [] []
  simp only [List.nil_append] at hs
  simp only [parse_core]
  cases hE : ((spines.foldl (parse_step d kid) ([], [], [])).1.isEmpty &&
              (spines.foldl (parse_step d kid) ([], [], [])).2.1.isEmpty) with
  | true =>
    have h2 : (spines.foldl (parse_step d kid) ([], [], [])).2.1 = [] :=
      List.isEmpty_iff.mp (Bool.and_elim_right hE)
    rw [h2] at hs
    simpa using hs
  | false =>
    simpa using hs

theorem foldl_parse_step_proc_eq (d : StudentData) (kid : Int) :
    ∀ (spines : List SpineItem) (res : List StudentForm)
      (skp : List SkippedRecord) (proc : List String),
      proc = res.map (fun f => f.file_id) →
      (spines.foldl (parse_step d kid) (res, skp, proc)).2.2
        = ((spines.foldl (parse_step d kid) (res, skp, proc)).1).map
            (fun f => f.file_id) := by
  intro spines
  induction spines with
  | nil => intro res skp proc hp; simpa using hp
  | cons it rest ih =>
    intro res skp proc hp
    rw [List.foldl_cons]
    cases h : get_spine_skip_reason it with
    | some reason =>
      rw [parse_step_skip d kid _ it reason h]
      exact ih res (skp ++ [mk_spine_skipped d kid it reason]) proc hp
    | none =>
      cases hc : ((spineFileId it == "") || proc.contains (spineFileId it)) with
      | true =>
        rw [parse_step_drop d kid _ it h hc]
        exact ih res skp proc hp
      | false =>
        rw [parse_step_add d kid _ it h hc]
        refine ih (res ++ [build_form d kid it]) skp (proc ++ [spineFileId it]) ?_
        simp [hp, build_form_file_id]

theorem foldl_parse_step_nodup (d : StudentData) (kid : Int) :
    ∀ (spines : List SpineItem) (res : List StudentForm)
      (skp : List SkippedRecord) (proc : List String),
      proc.Nodup →
      ((spines.foldl (parse_step d kid) (res, skp, proc)).2.2).Nodup := by
  intro spines
  induction spines with
  | nil => intro res skp proc hp; simpa using hp
  | cons it rest ih =>
    intro res skp proc hp
    rw [List.foldl_cons]
    cases h : get_spine_skip_reason it with
    | some reason =>
      rw [parse_step_skip d kid _ it reason h]
      exact ih _ _ _ hp
    | none =>
      cases hc : ((spineFileId it == "") || proc.contains (spineFileId it)) with
      | true =>
        rw [parse_step_drop d kid _ it h hc]
        exact ih _ _ _ hp
      | false =>
        rw [parse_step_add d kid _ it h hc]
        refine ih _ _ _ ?_
        simp only [Bool.or_eq_false_iff] at hc
        have hmem : spineFileId it ∉ proc := by
          have := hc.2
          simp at this
          exact this
        simp [List.nodup_append, hp, hmem]

theorem foldl_parse_step_ids_ne (d : StudentData) (kid : Int) :
    ∀ (spines : List SpineItem) (res : List StudentForm)
      (skp : List SkippedRecord) (proc : List String),
      (∀ f ∈ res, f.file_id ≠ "") →
      ∀ f ∈ (spines.foldl (parse_step d kid) (res, skp, proc)).1, f.file_id ≠ "" := by
  intro spines
  induction spines with
  | nil => intro res skp proc hr; simpa using hr
  | cons it rest ih =>
    intro res skp proc hr
    rw [List.foldl_cons]
    cases h : get_spine_skip_reason it with
    | some reason =>
      rw [parse_step_skip d kid _ it reason h]
      exact ih _ _ _ hr
    | none =>
      cases hc : ((spineFileId it == "") || proc.contains (spineFileId it)) with
      | true =>
        rw [parse_step_drop d kid _ it h hc]
        exact ih _ _ _ hr
      | false =>
        rw [parse_step_add d kid _ it h hc]
        refine ih _ _ _ ?_
        intro f hf
        rcases List.mem_append.mp hf with hf | hf
        · exact hr f hf
        · have hne : spineFileId it ≠ "" := by
            simp only [Bool.or_eq_false_iff] at hc
            have := hc.1
            simpa using this
          simp only [List.mem_singleton] at hf
          rw [hf, build_form_file_id]
          exact hne

theorem first_accepted_with_cons (it : SpineItem) (rest : List SpineItem)
    (fid : String) :
    first_accepted_with (it :: rest) fid
      = if ((get_spine_skip_reason it).isNone && (spineFileId it == fid)) then some it
        else first_accepted_with rest fid := by
  simp only [first_accepted_with, List.find?]
  cases ((get_spine_skip_reason it).isNone && (spineFileId it == fid)) <;> simp

theorem foldl_parse_step_filter (d : StudentData) (kid : Int) (fid : String)
    (hfid : fid ≠ "") :
    ∀ (spines : List SpineItem) (res : List StudentForm)
      (skp : List SkippedRecord) (proc : List String),
      ((spines.foldl (parse_step d kid) (res, skp, proc)).1).filter
          (fun f => f.file_id == fid)
        = res.filter (fun f => f.file_id == fid) ++
          (if fid ∈ proc then []
           else
             match first_accepted_with spines fid with
             | some it => [build_form d kid it]
             | none => []) := by
  intro spines
  induction spines with
  | nil =>
    intro res skp proc
    simp only [List.foldl_nil, first_accepted_with, List.find?_nil]
    by_cases hpc : fid ∈ proc <;> simp [hpc]
  | cons it rest ih =>
    intro res skp proc
    rw [List.foldl_cons]
    cases h : get_spine_skip_reason it with
    | some reason =>
      have hpred : ((get_spine_skip_reason it).isNone && (spineFileId it == fid)) = false := by
        simp [h]
      rw [parse_step_skip d kid _ it reason h, ih, first_accepted_with_cons]
      simp [hpred]
    | none =>
      cases hfe : (spineFileId it == fid) with
      | true =>
        have heq : spineFileId it = fid := eq_of_beq hfe
        have hpred : ((get_spine_skip_reason it).isNone && (spineFileId it == fid)) = true := by
          simp [h, hfe]
        cases hc : ((spineFileId it == "") || proc.contains (spineFileId it)) with
        | true =>
          have hpc : fid ∈ proc := by
            rcases Bool.or_eq_true_iff.mp hc with ha | hb
            · exact absurd (eq_of_beq ha) (heq ▸ hfid)
            · rw [← heq]; simpa using hb
          rw [parse_step_drop d kid _ it h hc, ih, first_accepted_with_cons]
          simp [hpred, hpc]
        | false =>
          simp only [Bool.or_eq_false_iff] at hc
          have hpc : fid ∉ proc := by
            rw [← heq]
            have := hc.2
            simpa using this
          have hbf : ((build_form d kid it).file_id == fid) = true := by
            rw [build_form_file_id]; exact hfe
          rw [parse_step_add d kid _ it h, ih, first_accepted_with_cons]
          · simp [hpred, hpc, List.filter_append, hbf, heq, h]
          · simp only [Bool.or_eq_false_iff]
            exact hc
      | false =>
        have hne : fid ≠ spineFileId it := by
          intro hh
          rw [hh] at hfe
          simp at hfe
        have hpred : ((get_spine_skip_reason it).isNone && (spineFileId it == fid)) = false := by
          simp [hfe]
        cases hc : ((spineFileId it == "") || proc.contains (spineFileId it)) with
        | true =>
          rw [parse_step_drop d kid _ it h hc, ih, first_accepted_with_cons]
          simp [hpred]
        | false =>
          have hbf : ((build_form d kid it).file_id == fid) = false := by
            rw [build_form_file_id]; exact hfe
          rw [parse_step_add d kid _ it h hc, ih, first_accepted_with_cons]
          have hmem : (fid ∈ proc ++ [spineFileId it]) = (fid ∈ proc) := by
            simp [List.mem_append, hne]
          simp [hpred, List.filter_append, hbf, hmem, hne]

theorem parse_core_forms (d : StudentData) (kid : Int) (spines : List SpineItem) :
    (parse_core d kid spines).1 = (spines.foldl (parse_step d kid) ([], [], [])).1 := by
  simp only [parse_core]
  cases hE : ((spines.foldl (parse_step d kid) ([], [], [])).1.isEmpty &&
              (spines.foldl (parse_step d kid) ([], [], [])).2.1.isEmpty) with
  | true =>
    have h1 : (spines.foldl (parse_step d kid) ([], [], [])).1 = [] :=
      List.isEmpty_iff.mp (Bool.and_elim_left hE)
    simp [h1]
  | false => simp

theorem parse_of_reason (j : CharJson) (kid : Int) (spines : List SpineItem)
    (r : String) (hv : validate_and_get_skip_reason j = some r) :
    parse j kid spines = ([], [], some r) := by
  unfold parse
  cases hd : j.data <;> rw [hv]

theorem parse_skipped_mem (j : CharJson) (kid : Int) (spines : List SpineItem) :
    ∀ rec ∈ (parse j kid spines).2.1, ∃ it ∈ spines, rec.spine_id = it.id := by
  intro rec hrec
  cases hv : validate_and_get_skip_reason j with
  | some r =>
    rw [parse_of_reason j kid spines r hv] at hrec
    simp at hrec
  | none =>
    cases hd : j.data with
    | absent =>
      unfold validate_and_get_skip_reason at hv
      rw [hd] at hv
      simp at hv
    | empty =>
      unfold validate_and_get_skip_reason at hv
      rw [hd] at hv
      simp at hv
    | value d =>
      rw [parse_skipped_eq j d kid spines hd hv] at hrec
      rcases List.mem_filterMap.mp hrec with ⟨it, hit, hsk⟩
      refine ⟨it, hit, ?_⟩
      unfold skip_rec_of at hsk
      rcases Option.map_eq_some'.mp hsk with ⟨reason, hr, hrec'⟩
      rw [← hrec']
      rfl

/-- C1: for a primary payload that passes whole-entity validation, `parse`
deduplicates by normalized file identifier with first-seen-wins: the emitted
file identifiers are pairwise distinct and non-empty, duplicate or
empty-identifier spines leave no `SkippedRecord` (the skip list is exactly
the per-rule rejections), and for each non-empty identifier the emitted forms
are exactly the one built from the first accepted spine normalizing to it. -/
theorem C1_dedup_first_wins (j : CharJson) (d : StudentData) (kid : Int)
    (spines : List SpineItem) (h : j.data = DataField.value d)
    (hv : validate_and_get_skip_reason j = none) :
    (((parse j kid spines).1).map (fun f => f.file_id)).Nodup
    ∧ (∀ f ∈ (parse j kid spines).1, f.file_id ≠ "")
    ∧ (parse j kid spines).2.1 = spines.filterMap (skip_rec_of d kid)
    ∧ (∀ fid : String, fid ≠ "" →
        ((parse j kid spines).1).filter (fun f => f.file_id == fid)
          = match first_accepted_with spines fid with
            | some it => [build_form d kid it]
            | none => []) := by
  have hforms : (parse j kid spines).1
      = (spines.foldl (parse_step d kid) ([], [], [])).1 := by
    rw [parse_eq_core j d kid spines h hv, parse_core_forms]
  refine ⟨?_, ?_, parse_skipped_eq j d kid spines h hv, ?_⟩
  · rw [hforms, ← foldl_parse_step_proc_eq d kid spines [] [] [] (by simp)]
    exact foldl_parse_step_nodup d kid spines [] [] [] List.nodup_nil
  · rw [hforms]
    exact foldl_parse_step_ids_ne d kid spines [] [] [] (by simp)
  · intro fid hfid
    rw [hforms, foldl_parse_step_filter d kid fid hfid spines [] [] []]
    simp

/-- C1 witness: two accepted spines both normalizing to `CH0001`; exactly one
form is emitted, built from the first. -/
theorem C1_dedup_first_wins_witness :
    (((parse exJ1 1 [exItA, exItB]).1).map (fun f => f.file_id)).Nodup
    ∧ (parse exJ1 1 [exItA, exItB]).2.1
        = [exItA, exItB].filterMap (skip_rec_of exD1 1)
    ∧ ((parse exJ1 1 [exItA, exItB]).1).filter (fun f => f.file_id == "CH0001")
        = match first_accepted_with [exItA, exItB] "CH0001" with
          | some it => [build_form exD1 1 it]
          | none => [] := by
  have hthm := C1_dedup_first_wins exJ1 exD1 1 [exItA, exItB] rfl rfl
  exact ⟨hthm.1, hthm.2.2.1, hthm.2.2.2 "CH0001" (by decide)⟩

/-- C2: `_normalize_file_id` strips the `J_` prefix, strips the `_spr` suffix,
then upper-cases iff the remainder matches `(CH|NP)` plus four digits
case-insensitively; in particular the two spec examples hold, and for any
core the composite raw name normalizes to the cased core. -/
theorem C2_normalize_file_id :
    normalize_file_id "J_CH0001_spr" = "CH0001"
    ∧ normalize_file_id "J_Something_spr" = "something"
    ∧ ∀ core : List Char,
        normalize_file_id (String.mk ('J' :: '_' :: (core ++ ['_', 's', 'p', 'r'])))
          = if matchChNp core then String.mk (core.map Char.toUpper)
            else String.mk (core.map Char.toLower) := by
  refine ⟨by decide, by decide, ?_⟩
  intro core
  have h1 : sStartsWith
      (String.mk ('J' :: '_' :: (core ++ ['_', 's', 'p', 'r']))) "J_" = true := by
    simp [sStartsWith]
  have hDrop : sDrop
      (String.mk ('J' :: '_' :: (core ++ ['_', 's', 'p', 'r']))) 2
        = String.mk (core ++ ['_', 's', 'p', 'r']) := rfl
  have hLen : (core ++ ['_', 's', 'p', 'r']).length - 4 = core.length := by
    simp
  have h2 : sEndsWith (String.mk (core ++ ['_', 's', 'p', 'r'])) "_spr" = true := by
    simp only [sEndsWith]
    have : (String.mk (core ++ ['_', 's', 'p', 'r'])).toList
        = core ++ ['_', 's', 'p', 'r'] := rfl
    rw [this]
    have h4 : "_spr".toList = ['_', 's', 'p', 'r'] := rfl
    rw [h4]
    simp only [List.length_cons, List.length_nil, hLen]
    rw [List.drop_left]
    simp
  have hDropR : sDropRight (String.mk (core ++ ['_', 's', 'p', 'r'])) 4
      = String.mk core := by
    simp only [sDropRight]
    have : (String.mk (core ++ ['_', 's', 'p', 'r'])).toList
        = core ++ ['_', 's', 'p', 'r'] := rfl
    rw [this]
    have h5 : (core ++ ['_', 's', 'p', 'r']).length - 4 = core.length := by simp
    rw [h5, List.take_left]
  simp only [normalize_file_id]
  rw [h1]
  simp only [if_true]
  rw [hDrop, h2]
  simp only [if_true]
  rw [hDropR]
  rfl

/-- C5 counterexample: a spine with a non-accepted type (`sprite`) but no
name.  `parse` emits exactly one `SkippedRecord` for it, but its reason is
the missing-name reason, not one naming the offending type — the name check
precedes the type check. -/
theorem C5_counterexample :
    (parse exJ1 1 [exIt0]).2.1.length = 1
    ∧ (parse exJ1 1 [exIt0]).2.1.countP (fun rec => rec.reason == "类型 (sprite)") = 0 := by
  exact ⟨by decide, by decide⟩

/-- C5 (amended): provided the primary payload passes whole-entity validation
and the spine has a non-empty name, a spine whose type tag is not accepted
gets exactly one `SkippedRecord` whose reason names the offending type: the
skip list of `parse` is the per-item `filterMap` of `skip_rec_of`, and on
such an item `skip_rec_of` yields exactly the type-naming record. -/
theorem C5_type_reason (j : CharJson) (d : StudentData) (kid : Int)
    (spines : List SpineItem) (h : j.data = DataField.value d)
    (hv : validate_and_get_skip_reason j = none)
    (it : SpineItem) (nm : String) (hnm : it.name = some nm) (hne : nm ≠ "")
    (htype : acceptsType it.type = false) :
    get_spine_skip_reason it = some ("类型 (" ++ pyShow it.type ++ ")")
    ∧ (parse j kid spines).2.1 = spines.filterMap (skip_rec_of d kid)
    ∧ skip_rec_of d kid it
        = some (mk_spine_skipped d kid it ("类型 (" ++ pyShow it.type ++ ")")) := by
  have hr : get_spine_skip_reason it = some ("类型 (" ++ pyShow it.type ++ ")") := by
    unfold get_spine_skip_reason
    rw [hnm]
    simp [hne, htype]
  exact ⟨hr, parse_skipped_eq j d kid spines h hv, by simp [skip_rec_of, hr]⟩

/-- C5 witness: a named spine of type `sprite` inside a valid payload. -/
theorem C5_type_reason_witness :
    get_spine_skip_reason exItT = some "类型 (sprite)"
    ∧ (parse exJ1 1 [exItT]).2.1 = [exItT].filterMap (skip_rec_of exD1 1)
    ∧ skip_rec_of exD1 1 exItT = some (mk_spine_skipped exD1 1 exItT "类型 (sprite)") := by
  have hthm := C5_type_reason exJ1 exD1 1 [exItT] rfl rfl exItT "X" rfl
    (by decide) (by decide)
  exact hthm

/-- C4: a primary payload whose school field is the official-account sentinel
30 makes `parse` return no forms, no per-spine skips and the "official
account" reason for every spine list, and `process_student_id` then records
exactly one `SkippedRecord` with no spine id and that reason. -/
theorem C4_official_account (j : CharJson) (d : StudentData)
    (h : j.data = DataField.value d) (hschool : d.school = some 30)
    (sid : Int) (r : Option String)
    (raw : List (Option SpineItem × Option String)) :
    (∀ (kid : Int) (spines : List SpineItem),
        parse j kid spines = ([], [], some "官方账号"))
    ∧ process_student_result sid (some j) r raw
        = (sid, [], [whole_skip_rec sid j "官方账号"])
    ∧ (whole_skip_rec sid j "官方账号").spine_id = none
    ∧ (whole_skip_rec sid j "官方账号").reason = "官方账号" := by
  have hv : validate_and_get_skip_reason j = some "官方账号" := by
    unfold validate_and_get_skip_reason
    rw [h]
    simp [hschool]
  have hp : ∀ (kid : Int) (spines : List SpineItem),
      parse j kid spines = ([], [], some "官方账号") :=
    fun kid spines => parse_of_reason j kid spines _ hv
  refine ⟨hp, ?_, rfl, rfl⟩
  simp only [process_student_result]
  rw [hp sid (raw.filterMap (fun p => p.1))]
  simp

/-- C4 witness: school-30 payload with an arbitrary spine fetch list. -/
theorem C4_official_account_witness :
    parse exJ30 5 [exItA] = ([], [], some "官方账号")
    ∧ process_student_result 5 (some exJ30) none []
        = (5, [], [whole_skip_rec 5 exJ30 "官方账号"]) := by
  have hthm := C4_official_account exJ30 exD30 rfl rfl 5 none []
  exact ⟨hthm.1 5 [exItA], hthm.2.1⟩

/-- C9: the per-identifier pipeline hands `parse` exactly the successfully
fetched spine payloads (the `filterMap` of the fetch results); the skip
records it returns are `parse`'s own rule rejections — each referencing one
of the successfully fetched spines — plus at most a whole-entity record with
no spine id, so failed spine fetches leave no `SkippedRecord`. -/
theorem C9_spine_failures_dropped (sid : Int) (j : CharJson) (r : Option String)
    (raw : List (Option SpineItem × Option String)) :
    (process_student_result sid (some j) r raw).2.1
      = (parse j sid (raw.filterMap (fun p => p.1))).1
    ∧ (process_student_result sid (some j) r raw).2.2
      = (parse j sid (raw.filterMap (fun p => p.1))).2.1 ++
        (match (parse j sid (raw.filterMap (fun p => p.1))).2.2 with
         | some reason => [whole_skip_rec sid j reason]
         | none => ([] : List SkippedRecord))
    ∧ (∀ rec ∈ (match (parse j sid (raw.filterMap (fun p => p.1))).2.2 with
          | some reason => [whole_skip_rec sid j reason]
          | none => ([] : List SkippedRecord)),
        rec.spine_id = none)
    ∧ (∀ rec ∈ (parse j sid (raw.filterMap (fun p => p.1))).2.1,
        ∃ it ∈ raw.filterMap (fun p => p.1), rec.spine_id = it.id) := by
  refine ⟨?_, ?_, ?_, parse_skipped_mem j sid _⟩
  · simp only [process_student_result]
    cases hm : (parse j sid (raw.filterMap (fun p => p.1))).2.2 <;> simp [hm]
  · simp only [process_student_result]
    cases hm : (parse j sid (raw.filterMap (fun p => p.1))).2.2 <;> simp [hm]
  · cases hm : (parse j sid (raw.filterMap (fun p => p.1))).2.2 with
    | none => simp
    | some reason =>
      intro rec hrec
      simp only [List.mem_singleton] at hrec
      rw [hrec]
      rfl

/-- C6: the remark `"Summer Outfit立绘"` (no initial-illustration marker)
strips to `"Summer Outfit"`; joined with an empty base skin the descriptor is
`"Summer Outfit"`, and with base skin already `"Summer Outfit"` the processed
remark is discarded, leaving the same descriptor without duplication. -/
theorem C6_skin_composition :
    process_spine_remark "Summer Outfit立绘" "" = "Summer Outfit"
    ∧ final_skin "" (process_spine_remark "Summer Outfit立绘" "") = "Summer Outfit"
    ∧ final_skin "Summer Outfit"
        (process_spine_remark "Summer Outfit立绘" "Summer Outfit") = "Summer Outfit" := by
  exact ⟨by decide, by decide, by decide⟩

/-! ## Lemmas about dict operations and the scrub -/

theorem lookupKey_cons (p : String × JVal) (fs : List (String × JVal)) (k : String) :
    lookupKey (p :: fs) k = if (p.1 == k) then some p.2 else lookupKey fs k := by
  simp only [lookupKey, List.find?]
  cases (p.1 == k) <;> simp

theorem lookupKey_popKey_self (fs : List (String × JVal)) (k : String) :
    lookupKey (popKey fs k) k = none := by
  induction fs with
  | nil => rfl
  | cons p fs ih =>
    cases h : (p.1 == k) with
    | true =>
      have hstep : popKey (p :: fs) k = popKey fs k := by
        simp [popKey, List.filter_cons, h]
      rw [hstep]
      exact ih
    | false =>
      have hstep : popKey (p :: fs) k = p :: popKey fs k := by
        simp [popKey, List.filter_cons, h]
      rw [hstep, lookupKey_cons, h]
      simpa using ih

theorem lookupKey_popKey_ne (fs : List (String × JVal)) (k k' : String)
    (h : (k' == k) = false) :
    lookupKey (popKey fs k) k' = lookupKey fs k' := by
  induction fs with
  | nil => rfl
  | cons p fs ih =>
    cases hp : (p.1 == k) with
    | true =>
      have hpk : p.1 = k := eq_of_beq hp
      have hp' : (p.1 == k') = false := by
        rw [hpk]
        exact beq_eq_false_iff_ne.mpr fun hh => (beq_eq_false_iff_ne.mp h) hh.symm
      have hstep : popKey (p :: fs) k = popKey fs k := by
        simp [popKey, List.filter_cons, hp]
      rw [hstep, ih, lookupKey_cons, hp']
      simp
    | false =>
      have hstep : popKey (p :: fs) k = p :: popKey fs k := by
        simp [popKey, List.filter_cons, hp]
      rw [hstep, lookupKey_cons, lookupKey_cons, ih]

theorem setKey_cons (p : String × JVal) (fs : List (String × JVal))
    (k : String) (v : JVal) :
    setKey (p :: fs) k v = (if (p.1 == k) then (k, v) else p) :: setKey fs k v := rfl

theorem lookupKey_setKey_ne (fs : List (String × JVal)) (k : String) (v : JVal)
    (k' : String) (h : (k' == k) = false) :
    lookupKey (setKey fs k v) k' = lookupKey fs k' := by
  have hne : k' ≠ k := beq_eq_false_iff_ne.mp h
  induction fs with
  | nil => rfl
  | cons p fs ih =>
    by_cases hp : p.1 = k
    · simp [setKey_cons, lookupKey_cons, hp, beq_eq_false_iff_ne.mpr (Ne.symm hne), ih]
    · simp [setKey_cons, lookupKey_cons, hp, ih]

theorem lookupKey_setKey_self (fs : List (String × JVal)) (k : String) (v w : JVal)
    (h : lookupKey fs k = some w) :
    lookupKey (setKey fs k v) k = some v := by
  induction fs with
  | nil => simp [lookupKey] at h
  | cons p fs ih =>
    by_cases hp : p.1 = k
    · simp [setKey_cons, lookupKey_cons, hp]
    · simp only [lookupKey_cons] at h
      rw [if_neg (by simp [hp])] at h
      simp [setKey_cons, lookupKey_cons, hp]
      exact ih h

theorem process_voice_lookup_ne (fs : List (String × JVal)) (field k' : String)
    (h : (k' == field) = false) :
    lookupKey (process_voice fs field) k' = lookupKey fs k' := by
  unfold process_voice
  cases hl : lookupKey fs field with
  | none => rfl
  | some v =>
    cases v with
    | jarr xs =>
      show lookupKey (if xs.isEmpty then setKey fs field (JVal.jarr [])
                      else setKey fs field (JVal.jarr [JVal.jstr "(cached_stripped)"])) k'
          = lookupKey fs k'
      cases hxs : xs.isEmpty with
      | true =>
        simp only [hxs, if_true]
        exact lookupKey_setKey_ne fs field _ k' h
      | false =>
        simp only [hxs, Bool.false_eq_true, if_false]
        exact lookupKey_setKey_ne fs field _ k' h
    | jnull => exact lookupKey_setKey_ne fs field _ k' h
    | jbool b => exact lookupKey_setKey_ne fs field _ k' h
    | jnum n => exact lookupKey_setKey_ne fs field _ k' h
    | jstr s => exact lookupKey_setKey_ne fs field _ k' h
    | jobj o => exact lookupKey_setKey_ne fs field _ k' h

theorem process_voice_lookup_arr (fs : List (String × JVal)) (field : String)
    (xs : List JVal) (h : lookupKey fs field = some (JVal.jarr xs)) :
    lookupKey (process_voice fs field) field
      = some (JVal.jarr (if xs.isEmpty then []
                         else [JVal.jstr "(cached_stripped)"])) := by
  unfold process_voice
  rw [h]
  show lookupKey (if xs.isEmpty then setKey fs field (JVal.jarr [])
                  else setKey fs field (JVal.jarr [JVal.jstr "(cached_stripped)"])) field
      = some (JVal.jarr (if xs.isEmpty then [] else [JVal.jstr "(cached_stripped)"]))
  cases hxs : xs.isEmpty with
  | true =>
    simp only [hxs, if_true]
    exact lookupKey_setKey_self fs field _ _ h
  | false =>
    simp only [hxs, Bool.false_eq_true, if_false]
    exact lookupKey_setKey_self fs field _ _ h

/-- C8: the pre-persist scrub removes `more` and `gallery` from the data
section entirely; each voice field present as a non-empty array collapses to
the single-element sentinel array, while an empty array stays empty; and a
payload without a dict-valued `data` section is written unchanged. -/
theorem C8_scrub (fsTop dataFs : List (String × JVal))
    (hne : fsTop.isEmpty = false)
    (hdata : lookupKey fsTop "data" = some (JVal.jobj dataFs)) :
    clean_student_data (JVal.jobj fsTop)
      = JVal.jobj (setKey fsTop "data" (JVal.jobj (clean_data_fields dataFs)))
    ∧ lookupKey (clean_data_fields dataFs) "more" = none
    ∧ lookupKey (clean_data_fields dataFs) "gallery" = none
    ∧ (∀ xs, lookupKey dataFs "voice" = some (JVal.jarr xs) →
        lookupKey (clean_data_fields dataFs) "voice"
          = some (JVal.jarr (if xs.isEmpty then []
                             else [JVal.jstr "(cached_stripped)"])))
    ∧ (∀ xs, lookupKey dataFs "voice_cn" = some (JVal.jarr xs) →
        lookupKey (clean_data_fields dataFs) "voice_cn"
          = some (JVal.jarr (if xs.isEmpty then []
                             else [JVal.jstr "(cached_stripped)"])))
    ∧ (∀ xs, lookupKey dataFs "voice_kr" = some (JVal.jarr xs) →
        lookupKey (clean_data_fields dataFs) "voice_kr"
          = some (JVal.jarr (if xs.isEmpty then []
                             else [JVal.jstr "(cached_stripped)"])))
    ∧ (∀ body : JVal, has_dict_data body = false →
        clean_student_data body = body) := by
  refine ⟨?_, ?_, ?_, ?_, ?_, ?_, ?_⟩
  · simp [clean_student_data, hne, hdata]
  · simp only [clean_data_fields]
    rw [process_voice_lookup_ne _ _ _ (by decide),
        process_voice_lookup_ne _ _ _ (by decide),
        process_voice_lookup_ne _ _ _ (by decide),
        lookupKey_popKey_ne _ _ _ (by decide),
        lookupKey_popKey_self]
  · simp only [clean_data_fields]
    rw [process_voice_lookup_ne _ _ _ (by decide),
        process_voice_lookup_ne _ _ _ (by decide),
        process_voice_lookup_ne _ _ _ (by decide),
        lookupKey_popKey_self]
  · intro xs hxs
    simp only [clean_data_fields]
    rw [process_voice_lookup_ne _ _ _ (by decide),
        process_voice_lookup_ne _ _ _ (by decide)]
    exact process_voice_lookup_arr _ _ _ (by
      rw [lookupKey_popKey_ne _ _ _ (by decide),
          lookupKey_popKey_ne _ _ _ (by decide)]
      exact hxs)
  · intro xs hxs
    simp only [clean_data_fields]
    rw [process_voice_lookup_ne _ _ _ (by decide)]
    rw [process_voice_lookup_arr _ _ xs ?_]
    · rw [process_voice_lookup_ne _ _ _ (by decide),
          lookupKey_popKey_ne _ _ _ (by decide),
          lookupKey_popKey_ne _ _ _ (by decide)]
      exact hxs
  · intro xs hxs
    simp only [clean_data_fields]
    rw [process_voice_lookup_arr _ _ xs ?_]
    · rw [process_voice_lookup_ne _ _ _ (by decide),
          process_voice_lookup_ne _ _ _ (by decide),
          lookupKey_popKey_ne _ _ _ (by decide),
          lookupKey_popKey_ne _ _ _ (by decide)]
      exact hxs
  · intro body hb
    cases body with
    | jobj fs =>
      simp only [has_dict_data] at hb
      cases hE : fs.isEmpty with
      | true => simp [clean_student_data, hE]
      | false =>
        rw [hE] at hb
        simp only [Bool.not_false, Bool.true_and] at hb
        cases hl : lookupKey fs "data" with
        | none => simp [clean_student_data, hE, hl]
        | some v =>
          cases v with
          | jobj dd => rw [hl] at hb; simp at hb
          | jnull => simp [clean_student_data, hE, hl]
          | jbool b => simp [clean_student_data, hE, hl]
          | jnum n => simp [clean_student_data, hE, hl]
          | jstr str => simp [clean_student_data, hE, hl]
          | jarr xs => simp [clean_student_data, hE, hl]
    | jnull => rfl
    | jbool b => rfl
    | jnum n => rfl
    | jstr s => rfl
    | jarr xs => rfl

/-- C8 witness: a concrete payload exercising field removal and both voice
collapse cases. -/
theorem C8_scrub_witness :
    clean_student_data (JVal.jobj exTopFs)
      = JVal.jobj (setKey exTopFs "data" (JVal.jobj (clean_data_fields exDataFs)))
    ∧ lookupKey (clean_data_fields exDataFs) "more" = none
    ∧ lookupKey (clean_data_fields exDataFs) "gallery" = none
    ∧ lookupKey (clean_data_fields exDataFs) "voice"
        = some (JVal.jarr [JVal.jstr "(cached_stripped)"])
    ∧ lookupKey (clean_data_fields exDataFs) "voice_cn" = some (JVal.jarr []) := by
  have hthm := C8_scrub exTopFs exDataFs rfl rfl
  refine ⟨hthm.1, hthm.2.1, hthm.2.2.1, ?_, ?_⟩
  · exact hthm.2.2.2.1 [JVal.jstr "v"] rfl
  · exact hthm.2.2.2.2.1 [] rfl

theorem fetch_student_net_write (net : NetOutcome) :
    (fetch_student_net net).cacheWrite.isSome = net_gives_valid_2000 net := by
  cases net with
  | notFound => rfl
  | statusError m => rfl
  | requestError m => rfl
  | otherError m => rfl
  | ok body =>
    cases body with
    | jobj fs =>
      simp only [fetch_student_net, net_gives_valid_2000, student_body_caches, isTruthy]
      cases hE : fs.isEmpty with
      | true => simp [hE]
      | false =>
        cases hcode : code_is_2000 fs with
        | true => simp [hE, hcode]
        | false => simp [hE, hcode]
    | jnull => rfl
    | jbool b => cases b <;> rfl
    | jnum n =>
      cases hn : (n == 0) <;>
        simp [fetch_student_net, net_gives_valid_2000, student_body_caches, isTruthy, hn]
    | jstr s =>
      cases hs : (s == "") <;>
        simp [fetch_student_net, net_gives_valid_2000, student_body_caches, isTruthy, hs]
    | jarr xs =>
      cases hx : xs.isEmpty <;>
        simp [fetch_student_net, net_gives_valid_2000, student_body_caches, isTruthy, hx]

/-- C7: `fetch_student_data` persists a cache entry exactly when the cache
missed (absent or falsy cached blob) and the network returned a 2xx JSON
body that is a non-empty dict carrying `code = 2000`; on 404, transport or
other errors, or a body without that code, nothing is written. -/
theorem C7_cache_write_iff (cached : Option JVal) (net : NetOutcome) :
    (fetch_student_data cached net).cacheWrite.isSome
      = (!cache_hit_student cached && net_gives_valid_2000 net) := by
  cases cached with
  | none =>
    simpa [fetch_student_data, cache_hit_student] using fetch_student_net_write net
  | some c =>
    cases hic : isTruthy c with
    | true => simp [fetch_student_data, cache_hit_student, hic]
    | false =>
      simpa [fetch_student_data, cache_hit_student, hic] using fetch_student_net_write net

/-- C3 counterexample: a cache-missing fetch whose network body carries
`code = 2000` and a `data.gallery` entry does NOT return the response as-is —
`save_student` scrubs the very dict that is returned, so the caller's value
lost the `gallery` field. -/
theorem C3_counterexample :
    (fetch_student_data none (NetOutcome.ok ex_body3)).value ≠ some ex_body3 := by
  intro hEq
  have h1 : has_gallery (fetch_student_data none (NetOutcome.ok ex_body3)).value = false := by
    decide
  have h2 : has_gallery (some ex_body3) = true := by decide
  rw [hEq, h2] at h1
  exact Bool.noConfusion h1

/-- C3 (amended): on a cache miss with a 2xx JSON dict body, the value handed
to the caller is the response *after* the in-place cache scrub whenever the
body carries `code = 2000` (and it is exactly the persisted value); a body
without the code is returned unmodified and nothing is persisted. -/
theorem C3_scrub_aliasing (cached : Option JVal) (body : JVal)
    (hmiss : cache_hit_student cached = false) :
    (student_body_caches body = true →
      (fetch_student_data cached (NetOutcome.ok body)).value
          = some (clean_student_data body)
      ∧ (fetch_student_data cached (NetOutcome.ok body)).cacheWrite
          = some (clean_student_data body))
    ∧ (student_body_caches body = false →
        (fetch_student_data cached (NetOutcome.ok body)).cacheWrite = none)
    ∧ (∀ fs, body = JVal.jobj fs → student_body_caches body = false →
        (fetch_student_data cached (NetOutcome.ok body)).value = some body) := by
  have hnet : fetch_student_data cached (NetOutcome.ok body)
      = fetch_student_net (NetOutcome.ok body) := by
    cases cached with
    | none => rfl
    | some c =>
      simp only [cache_hit_student] at hmiss
      simp [fetch_student_data, hmiss]
  rw [hnet]
  refine ⟨?_, ?_, ?_⟩
  · intro hcache
    cases body with
    | jobj fs =>
      simp only [student_body_caches] at hcache
      rcases Bool.and_eq_true_iff.mp hcache with ⟨h1, h2⟩
      have hE : fs.isEmpty = false := by simpa using h1
      exact ⟨by simp [fetch_student_net, isTruthy, hE, h2],
             by simp [fetch_student_net, isTruthy, hE, h2]⟩
    | jnull => simp [student_body_caches] at hcache
    | jbool b => simp [student_body_caches] at hcache
    | jnum n => simp [student_body_caches] at hcache
    | jstr s => simp [student_body_caches] at hcache
    | jarr xs => simp [student_body_caches] at hcache
  · intro hcache
    cases body with
    | jobj fs =>
      cases hE : fs.isEmpty with
      | true => simp [fetch_student_net, isTruthy, hE]
      | false =>
        simp only [student_body_caches, hE] at hcache
        simp only [Bool.not_false, Bool.true_and] at hcache
        simp [fetch_student_net, isTruthy, hE, hcache]
    | jnull => rfl
    | jbool b => cases b <;> rfl
    | jnum n =>
      cases hn : (n == 0) <;> simp [fetch_student_net, isTruthy, hn]
    | jstr s =>
      cases hs : (s == "") <;> simp [fetch_student_net, isTruthy, hs]
    | jarr xs =>
      cases hx : xs.isEmpty <;> simp [fetch_student_net, isTruthy, hx]
  · intro fs hb hcache
    subst hb
    cases hE : fs.isEmpty with
    | true => simp [fetch_student_net, isTruthy, hE]
    | false =>
      simp only [student_body_caches, hE] at hcache
      simp only [Bool.not_false, Bool.true_and] at hcache
      simp [fetch_student_net, isTruthy, hE, hcache]

/-- C3 witness: the amended behavior at the concrete scrubbed payload. -/
theorem C3_scrub_aliasing_witness :
    (fetch_student_data none (NetOutcome.ok ex_body3)).value
        = some (clean_student_data ex_body3)
    ∧ (fetch_student_data none (NetOutcome.ok ex_body3)).cacheWrite
        = some (clean_student_data ex_body3) :=
  (C3_scrub_aliasing none ex_body3 rfl).1 rfl

/-- C10: on a truthy cached blob, `fetch_spine_data` reports no failure at
all: it returns the nested `data` payload when the blob is a dict with a
`'data'` key and the blob itself verbatim otherwise, with no reason and no
cache write; the invalid-format rejection (with no cache write) is issued
only on network bodies that are not dicts with a `'data'` key. -/
theorem C10_spine_cache_hit (c : JVal) (net : SpineNetOutcome)
    (h : isTruthy c = true) :
    fetch_spine_data (some c) net = ⟨some (spine_hit_value c), none, none⟩
    ∧ (∀ fs, c = JVal.jobj fs → ∀ dv, lookupKey fs "data" = some dv →
        spine_hit_value c = dv)
    ∧ (∀ fs, c = JVal.jobj fs → lookupKey fs "data" = none →
        spine_hit_value c = c)
    ∧ (∀ body, valid_spine_body body = false →
        fetch_spine_net (SpineNetOutcome.ok body) = ⟨none, some "响应格式无效", none⟩) := by
  refine ⟨by simp [fetch_spine_data, h], ?_, ?_, ?_⟩
  · intro fs hc dv hl
    subst hc
    simp [spine_hit_value, hl]
  · intro fs hc hl
    subst hc
    simp [spine_hit_value, hl]
  · intro body hb
    cases body with
    | jobj fs =>
      cases hl : lookupKey fs "data" with
      | some dv =>
        simp only [valid_spine_body, hl] at hb
        simp at hb
      | none => simp [fetch_spine_net, hl]
    | jnull => rfl
    | jbool b => rfl
    | jnum n => rfl
    | jstr s => rfl
    | jarr xs => rfl

/-- C10 witness: a dict cached blob with a `'data'` key, a pending network
error that is never consulted, and a non-dict network body for the
invalid-format side. -/
theorem C10_spine_cache_hit_witness :
    fetch_spine_data (some exSpineCache) (SpineNetOutcome.requestError "boom")
      = ⟨some (JVal.jstr "payload"), none, none⟩
    ∧ fetch_spine_net (SpineNetOutcome.ok (JVal.jstr "bad"))
      = ⟨none, some "响应格式无效", none⟩ := by
  have hthm := C10_spine_cache_hit exSpineCache (SpineNetOutcome.requestError "boom") rfl
  exact ⟨hthm.1, hthm.2.2.2 (JVal.jstr "bad") rfl⟩
